import Mathlib

/-!
Verification development for the course progress / badge derivation engine
and the scenario-submission client of the repository.

The JavaScript source is shallowly embedded: JS numbers are modelled as an
inductive type over the rationals together with the non-finite values `NaN`,
`Infinity` and `-Infinity`; JS string/number primitive ids are modelled by
`JKey`; optional / possibly-malformed fields are modelled with `Option`,
where `none` stands for a field that is absent (or of the wrong type where
the source checks the type, e.g. `Array.isArray`).
-/

/-- A JavaScript number: a finite rational value, `NaN`, `Infinity`, or
`-Infinity`.  Finite doubles are embedded into `ℚ` exactly; the source code
performs only comparisons, (+), (/) and rounding on them. -/
inductive JSNum where
  | fin (q : ℚ)
  | nan
  | inf
  | ninf
deriving DecidableEq

/-- `Number.isFinite`. -/
def JSNum.isFinite : JSNum → Bool
  | .fin _ => true
  | _ => false

/-- The JS `>=` comparison on numbers (`NaN` compares false with everything). -/
def jsGe : JSNum → JSNum → Bool
  | .nan, _ => false
  | _, .nan => false
  | .inf, _ => true
  | _, .ninf => true
  | .ninf, _ => false
  | .fin _, .inf => false
  | .fin x, .fin y => decide (y ≤ x)

/-- The JS `>` comparison on numbers. -/
def jsGt : JSNum → JSNum → Bool
  | .nan, _ => false
  | _, .nan => false
  | .inf, .inf => false
  | .inf, _ => true
  | .ninf, _ => false
  | .fin _, .inf => false
  | .fin _, .ninf => true
  | .fin x, .fin y => decide (y < x)

/-- The JS `<=` comparison on numbers. -/
def jsLe (a b : JSNum) : Bool := jsGe b a

/-- JS truthiness of a number: falsy exactly for `0` and `NaN`. -/
def JSNum.truthy : JSNum → Bool
  | .fin q => decide (q ≠ 0)
  | .nan => false
  | .inf => true
  | .ninf => true

/-- JS `+` on two numbers. -/
def jsAdd : JSNum → JSNum → JSNum
  | .nan, _ => .nan
  | _, .nan => .nan
  | .inf, .ninf => .nan
  | .ninf, .inf => .nan
  | .inf, _ => .inf
  | _, .inf => .inf
  | .ninf, _ => .ninf
  | _, .ninf => .ninf
  | .fin x, .fin y => .fin (x + y)

/-- JS `/` on two numbers (the source only divides finite positives, but the
operation is modelled totally). -/
def jsDiv : JSNum → JSNum → JSNum
  | .nan, _ => .nan
  | _, .nan => .nan
  | .inf, .inf => .nan
  | .inf, .ninf => .nan
  | .ninf, .inf => .nan
  | .ninf, .ninf => .nan
  | .inf, .fin _ => .inf
  | .ninf, .fin _ => .ninf
  | .fin _, .inf => .fin 0
  | .fin _, .ninf => .fin 0
  | .fin x, .fin y =>
    if y = 0 then (if x = 0 then .nan else if 0 < x then .inf else .ninf)
    else .fin (x / y)

/-- JS `a || b` specialised to numbers: `a` if truthy, else `b`. -/
def jsOrNum (a b : JSNum) : JSNum := if a.truthy then a else b

/-- `Math.round`: round half toward positive infinity (on finite values,
which is all the source ever rounds). -/
def jsRound (q : ℚ) : ℤ := (q + 1 / 2).floor

/-- A JS string or number primitive, as used for lesson ids, badge ids and
module ids.  Numeric ids are restricted to integers (`String(n)` of an
integer double agrees with `toString` on `ℤ`). -/
inductive JKey where
  | str (s : String)
  | num (n : ℤ)
deriving DecidableEq

/-- The JS `String(·)` coercion of a primitive id. -/
def JKey.toStr : JKey → String
  | .str s => s
  | .num n => toString n

/-- JS truthiness of a primitive id: `""` and `0` are falsy. -/
def JKey.truthy : JKey → Bool
  | .str s => decide (s ≠ "")
  | .num n => decide (n ≠ 0)

/-- First truthy value of a JS `||` chain over possibly-absent primitives
(`none` = the field is absent, i.e. `undefined`). -/
def firstTruthy : List (Option JKey) → Option JKey
  | [] => none
  | none :: rest => firstTruthy rest
  | some k :: rest => if k.truthy then some k else firstTruthy rest

/-- A lesson entry of a module's lesson array: a string/number primitive, an
object carrying some of the id fields read by `getLessonId`, or any other
value (`null`, booleans, ...). -/
inductive Lesson where
  | prim (k : JKey)
  | obj (lessonId id slug uid : Option JKey)
  | other
deriving DecidableEq

/-- `getLessonId(lesson, index)` from `src/unnamed/part_000` lines 97-101:
primitives are `String(...)`-coerced; objects take the first truthy of
`lessonId || id || slug || uid`; everything else (and objects with no truthy
id field) falls back to `lesson-${index+1}`. -/
def getLessonId (lesson : Lesson) (index : ℕ) : String :=
  match lesson with
  | .prim k => k.toStr
  | .other => "lesson-" ++ toString (index + 1)
  | .obj lessonId id slug uid =>
    match firstTruthy [lessonId, id, slug, uid] with
    | some k => k.toStr
    | none => "lesson-" ++ toString (index + 1)

/-- A module definition (the fields of the untyped JS module object that the
derivation code reads).  `none` marks an absent field, or a field whose value
fails the source's type test (`Array.isArray` for the lesson candidates,
`typeof ... === 'number'` for `moduleNumber` / `passingScore`,
`typeof ... === 'string'` for a string `id`).  `badge` holds `module.badge.id`
when present.  (Named `CourseModule` because `Module` is taken by Mathlib.) -/
structure CourseModule where
  id : Option JKey := none
  moduleNumber : Option ℤ := none
  lessons : Option (List Lesson) := none
  lessonList : Option (List Lesson) := none
  lessonsList : Option (List Lesson) := none
  items : Option (List Lesson) := none
  content : Option (List Lesson) := none
  passingScore : Option JSNum := none
  badge : Option JKey := none
deriving DecidableEq

/-- Fallback of `getModuleId` when the module has no usable string id:
`module-${moduleNumber}` if `moduleNumber` is a number, else
`module-${index+1}`. -/
def moduleIdFallback (module : CourseModule) (index : ℕ) : String :=
  match module.moduleNumber with
  | some n => "module-" ++ toString n
  | none => "module-" ++ toString (index + 1)

/-- `getModuleId(module, index)` (`part_000` lines 72-76): the module's own
`id` if it is a string that is nonempty after trimming, else the fallback. -/
def getModuleId (module : CourseModule) (index : ℕ) : String :=
  match module.id with
  | some (.str s) => if s.trim ≠ "" then s else moduleIdFallback module index
  | _ => moduleIdFallback module index

/-- `getModuleLessons(module)` (`part_000` lines 89-95): the first of
`lessons`, `lessonList`, `lessonsList`, `items`, `content` that is an array,
else `[]`. -/
def getModuleLessons (module : CourseModule) : List Lesson :=
  match module.lessons with
  | some l => l
  | none =>
    match module.lessonList with
    | some l => l
    | none =>
      match module.lessonsList with
      | some l => l
      | none =>
        match module.items with
        | some l => l
        | none =>
          match module.content with
          | some l => l
          | none => []

/-- Per-module progress record (the fields of the untyped JS object the
derivation code reads).  `lessonsCompleted = none` models an absent or
non-array field; `quizPassed` models the raw field where only `some true`
satisfies the source's `=== true` test; `quizScore`/`quizAttempts` are
`none` when absent (or `null`); `badgeEarned` is the field's truthiness. -/
structure ModuleProgress where
  lessonsCompleted : Option (List JKey) := none
  quizPassed : Option Bool := none
  quizScore : Option JSNum := none
  quizAttempts : Option JSNum := none
  badgeEarned : Bool := false
deriving DecidableEq

/-- A per-scenario result record as read by `hasExcellentScenario`
(`Number(result?.score)`, `Number(result?.maxScore)`); `none` models an
absent field, which `Number(·)` coerces to `NaN`. -/
structure ScenarioResult where
  score : Option JSNum := none
  maxScore : Option JSNum := none
deriving DecidableEq

/-- `Number(·)` applied to a possibly-absent number field. -/
def numOfField : Option JSNum → JSNum
  | some n => n
  | none => .nan

/-- The progress document argument.  `notObj` models `null`, `undefined` or a
non-object; `obj` carries the `modules` map, the `scenarios` map, the
`badges` array (each `none` when absent or of the wrong type) and the
`user.startedAt` display timestamp, which the derivation code never reads. -/
inductive Progress where
  | notObj
  | obj (modules : Option (List (String × ModuleProgress)))
        (scenarios : Option (List (String × ScenarioResult)))
        (badges : Option (List JKey))
        (startedAt : Option JSNum)
deriving DecidableEq

/-- `getModuleProgress(progress, moduleId)` (`part_000` lines 103-107):
`{}` when `progress` is not an object or has no `modules` object, else
`progress.modules[moduleId] || {}`. -/
def getModuleProgress (progress : Progress) (moduleId : String) : ModuleProgress :=
  match progress with
  | .notObj => {}
  | .obj modules _ _ _ =>
    match modules with
    | none => {}
    | some m => (m.lookup moduleId).getD {}

/-- `getCompletedLessonCount(module, moduleProgress)` (`part_000` lines
109-118): the number of the module's lessons whose id is in the
`String(·)`-coerced set of `lessonsCompleted`. -/
def getCompletedLessonCount (module : CourseModule) (moduleProgress : ModuleProgress) : ℕ :=
  let lessons := getModuleLessons module
  let completedLessons := moduleProgress.lessonsCompleted.getD []
  let completedSet := completedLessons.map JKey.toStr
  lessons.enum.countP fun il => completedSet.contains (getLessonId il.2 il.1)

/-- The effective passing score used by `moduleQuizPassed` (`part_000` lines
123-126): the module's own `passingScore` when it is a finite number, else
the default 70. -/
def effectivePassingScore (module : CourseModule) : JSNum :=
  match module.passingScore with
  | some n => if n.isFinite then n else .fin 70
  | none => .fin 70

/-- `moduleQuizPassed(moduleProgress, module)` (`part_000` lines 120-130):
true if `quizPassed === true`, or if `quizScore` is a finite number that is
`>=` the effective passing score. -/
def moduleQuizPassed (moduleProgress : ModuleProgress) (module : CourseModule) : Bool :=
  if moduleProgress.quizPassed = some true then true
  else
    match moduleProgress.quizScore with
    | some score => score.isFinite && jsGe score (effectivePassingScore module)
    | none => false

/-- `isModuleCompleted(module, moduleProgress)` (`part_000` lines 132-136). -/
def isModuleCompleted (module : CourseModule) (moduleProgress : ModuleProgress) : Bool :=
  let lessonCount := (getModuleLessons module).length
  let lessonsComplete := lessonCount == 0 || lessonCount ≤ getCompletedLessonCount module moduleProgress
  lessonsComplete && moduleQuizPassed moduleProgress module

/-- The `typeof quizAttempts` test of `getModuleStatus`: the field's value
when it is a number, else 0. -/
def quizAttemptsNumber : Option JSNum → JSNum
  | some n => n
  | none => .fin 0

/-- `getModuleStatus(module, moduleProgress)` (`part_000` lines 138-146). -/
def getModuleStatus (module : CourseModule) (moduleProgress : ModuleProgress) : String :=
  if isModuleCompleted module moduleProgress then "completed"
  else
    let completedLessons := getCompletedLessonCount module moduleProgress
    let attempts := quizAttemptsNumber moduleProgress.quizAttempts
    let hasActivity :=
      0 < completedLessons || jsGt attempts (.fin 0) || moduleProgress.quizScore.isSome
    if hasActivity then "in_progress" else "not_started"

/-- `countCompletedModules(modules, progress)` (`part_000` lines 148-155);
`modules = none` models a non-array argument. -/
def countCompletedModules (modules : Option (List CourseModule)) (progress : Progress) : ℕ :=
  let safeModules := modules.getD []
  safeModules.enum.countP fun im =>
    isModuleCompleted im.2 (getModuleProgress progress (getModuleId im.2 im.1))

/-- `allModulesCompleted(modules, progress)` (`part_000` lines 157-166):
false for an empty (or non-array) list, else `every` module completed. -/
def allModulesCompleted (modules : Option (List CourseModule)) (progress : Progress) : Bool :=
  let safeModules := modules.getD []
  if safeModules.length == 0 then false
  else safeModules.enum.all fun im =>
    isModuleCompleted im.2 (getModuleProgress progress (getModuleId im.2 im.1))

/-- `overallProgressPercent(modules, progress)` (`part_000` lines 168-173):
`0` with no modules, else `Math.round((completedModules / total) * 100)`. -/
def overallProgressPercent (modules : Option (List CourseModule)) (progress : Progress) : ℤ :=
  let safeModules := modules.getD []
  if safeModules.isEmpty then 0
  else
    jsRound (((countCompletedModules (some safeModules) progress : ℚ) /
      (safeModules.length : ℚ)) * 100)

/-- `hasPerfectScore(progress)` (`part_000` lines 175-181): some value of the
`modules` map has a numeric `quizScore >= 100`. -/
def hasPerfectScore (progress : Progress) : Bool :=
  match progress with
  | .obj (some m) _ _ _ =>
    (m.map Prod.snd).any fun moduleProgress =>
      match moduleProgress.quizScore with
      | some score => jsGe score (.fin 100)
      | none => false
  | _ => false

/-- `hasExcellentScenario(progress)` (`part_000` lines 183-193): some value
of the `scenarios` map has finite `score`, finite positive `maxScore`, and
`score / maxScore >= 0.9`. -/
def hasExcellentScenario (progress : Progress) : Bool :=
  match progress with
  | .obj _ (some scs) _ _ =>
    (scs.map Prod.snd).any fun result =>
      let score := numOfField result.score
      let maxScore := numOfField result.maxScore
      if !score.isFinite || !maxScore.isFinite || jsLe maxScore (.fin 0) then false
      else jsGe (jsDiv score maxScore) (.fin (9 / 10))
  | _ => false

/-- The seed of the earned-badge set (`part_000` lines 196-200):
`progress.badges` coerced to strings when it is an array, else `[]`. -/
def seedBadges (progress : Progress) : List String :=
  match progress with
  | .obj _ _ (some badges) _ => badges.map JKey.toStr
  | _ => []

/-- One iteration of the `safeModules.forEach` loop of
`deriveEarnedBadgeIds` (`part_000` lines 203-211): the badge string this
module adds, if any — its `badge.id` (truthy, `String(·)`-coerced) when
`moduleProgress.badgeEarned` or the module is completed. -/
def moduleBadgeAward (progress : Progress) (index : ℕ) (module : CourseModule) : Option String :=
  match module.badge with
  | some badgeId =>
    if badgeId.truthy then
      let moduleProgress := getModuleProgress progress (getModuleId module index)
      if moduleProgress.badgeEarned || isModuleCompleted module moduleProgress then
        some badgeId.toStr
      else none
    else none
  | none => none

/-- `deriveEarnedBadgeIds(progress, modules)` (`part_000` lines 195-226),
with the returned JS `Set` modelled as a `Finset String`. -/
def deriveEarnedBadgeIds (progress : Progress) (modules : Option (List CourseModule)) :
    Finset String :=
  let earned := (seedBadges progress).toFinset
  let safeModules := modules.getD []
  let earned := safeModules.enum.foldl
    (fun acc im =>
      match moduleBadgeAward progress im.1 im.2 with
      | some s => insert s acc
      | none => acc) earned
  let earned := if hasPerfectScore progress then insert "perfect-score" earned else earned
  let earned := if hasExcellentScenario progress then insert "scenario-star" earned else earned
  if allModulesCompleted (some safeModules) progress then insert "completionist" earned
  else earned

example : jsGe JSNum.inf (.fin 70) = true := by decide

example : getCompletedLessonCount
    { lessons := some [.prim (.num 1), .prim (.str "2")] }
    { lessonsCompleted := some [.num 1, .str "1", .num 2] } = 2 := by decide

example : deriveEarnedBadgeIds (.obj (some []) none none none) (some []) = ∅ := by decide

example (progress : Progress) : overallProgressPercent none progress = 0 := by rfl

/-- A JSON value occurring in a request body built by the client
(`JSON.stringify` of string and integer fields). -/
inductive JsonVal where
  | str (s : String)
  | int (n : ℤ)
deriving DecidableEq

/-- An HTTP request as assembled by `fetchJSON` in
`src/client/src/utils/api.js`: the `/api`-prefixed url, the method, and the
serialized body as a list of (field name, value) pairs. -/
structure ApiRequest where
  url : String
  method : String
  body : List (String × JsonVal)
deriving DecidableEq

/-- `submitScenarioChoice(scenarioId, stepId, choiceIndex)` from
`src/client/src/utils/api.js` lines 63-67: a POST to
`/api/scenarios/${scenarioId}/choice` whose body is
`JSON.stringify({ stepId, choiceIndex })`. -/
def submitScenarioChoice (scenarioId stepId : String) (choiceIndex : ℤ) : ApiRequest :=
  { url := "/api/scenarios/" ++ scenarioId ++ "/choice"
    method := "POST"
    body := [("stepId", .str stepId), ("choiceIndex", .int choiceIndex)] }

/-- The call made by `submitChoice` in
`src/client/src/components/ScenarioEngine.jsx` line 97:
`submitScenarioChoice(scenario.id, currentStep.id, selectedChoice, runningPoints)`.
JavaScript silently discards the extra fourth argument, since the function's
declared parameters are `(scenarioId, stepId, choiceIndex)`. -/
def submitChoiceRequest (scenarioId stepId : String) (choiceIndex : ℤ)
    (runningPoints : JSNum) : ApiRequest :=
  submitScenarioChoice scenarioId stepId choiceIndex

/-- A JS value that may sit in the `points` field of a server response:
a number, a boolean, `null`, `undefined` (also covering an absent field on
an object, or `response?.points` on a non-object response), or a plain
object, whose `Number(·)` coercion is `NaN`. -/
inductive JSVal where
  | num (n : JSNum)
  | boolv (b : Bool)
  | nullv
  | undef
  | objv
deriving DecidableEq

/-- The JS `Number(·)` coercion on such a value. -/
def jsToNumber : JSVal → JSNum
  | .num n => n
  | .boolv b => .fin (if b then 1 else 0)
  | .nullv => .fin 0
  | .undef => .nan
  | .objv => .nan

/-- `const gainedPoints = Number(response?.points) || 0` from
`ScenarioEngine.jsx` line 98. -/
def gainedPoints (points : JSVal) : JSNum :=
  jsOrNum (jsToNumber points) (.fin 0)

/-- `const totalPoints = runningPoints + gainedPoints` from
`ScenarioEngine.jsx` line 99: the next value of the running total. -/
def nextRunningPoints (runningPoints : JSNum) (points : JSVal) : JSNum :=
  jsAdd runningPoints (gainedPoints points)

example : gainedPoints .undef = .fin 0 := by decide

example : gainedPoints (.num (.fin 5)) = .fin 5 := by decide

/-- The list of (module id, record) entries of the progress document's
`modules` map ([] when the map is absent), over whose values
`hasPerfectScore` iterates with `Object.values`. -/
def progressModules (progress : Progress) : List (String × ModuleProgress) :=
  match progress with
  | .obj (some m) _ _ _ => m
  | _ => []

lemma effectivePassingScore_isFinite (module : CourseModule) :
    (effectivePassingScore module).isFinite = true := by
  unfold effectivePassingScore
  cases module.passingScore with
  | none => rfl
  | some n => cases n <;> rfl

lemma isModuleCompleted_iff_aux (module : CourseModule) (mp : ModuleProgress) :
    isModuleCompleted module mp = true ↔
      ((getModuleLessons module).length = 0 ∨
        (getModuleLessons module).length ≤ getCompletedLessonCount module mp) ∧
      (mp.quizPassed = some true ∨
        ∃ s, mp.quizScore = some s ∧ s.isFinite = true ∧
          jsGe s (effectivePassingScore module) = true) := by
  unfold isModuleCompleted moduleQuizPassed
  by_cases hqp : mp.quizPassed = some true
  · simp [hqp]
  · cases hqs : mp.quizScore with
    | none => simp [hqp, hqs]
    | some s => simp [hqp, hqs, and_assoc]

lemma mem_foldl_badge (progress : Progress) (l : List (ℕ × CourseModule))
    (s : Finset String) (x : String) :
    x ∈ l.foldl
        (fun acc im =>
          match moduleBadgeAward progress im.1 im.2 with
          | some b => insert b acc
          | none => acc) s ↔
      x ∈ s ∨ ∃ im ∈ l, moduleBadgeAward progress im.1 im.2 = some x := by
  induction l generalizing s with
  | nil => simp
  | cons a t ih =>
    rw [List.foldl_cons, ih]
    cases h : moduleBadgeAward progress a.1 a.2 <;>
      simp [h, Finset.mem_insert] <;> tauto

lemma mem_insertIf (c : Bool) (y x : String) (s : Finset String) :
    (x ∈ if c = true then insert y s else s) ↔ (x = y ∧ c = true) ∨ x ∈ s := by
  cases c <;> simp

lemma allModulesCompleted_getD (oms : Option (List CourseModule)) (progress : Progress) :
    allModulesCompleted (some (oms.getD [])) progress = allModulesCompleted oms progress := by
  cases oms <;> rfl

lemma mem_deriveEarnedBadgeIds (progress : Progress) (oms : Option (List CourseModule))
    (x : String) :
    x ∈ deriveEarnedBadgeIds progress oms ↔
      x ∈ seedBadges progress
      ∨ (∃ im ∈ (oms.getD []).enum, moduleBadgeAward progress im.1 im.2 = some x)
      ∨ (x = "perfect-score" ∧ hasPerfectScore progress = true)
      ∨ (x = "scenario-star" ∧ hasExcellentScenario progress = true)
      ∨ (x = "completionist" ∧ allModulesCompleted oms progress = true) := by
  unfold deriveEarnedBadgeIds
  dsimp only
  rw [allModulesCompleted_getD, mem_insertIf, mem_insertIf, mem_insertIf, mem_foldl_badge]
  simp only [List.mem_toFinset]
  aesop

lemma hasPerfectScore_iff (progress : Progress) :
    hasPerfectScore progress = true ↔
      ∃ e ∈ progressModules progress, ∃ s,
        e.2.quizScore = some s ∧ jsGe s (JSNum.fin 100) = true := by
  cases progress with
  | notObj => simp [hasPerfectScore, progressModules]
  | obj ms sc b t =>
    cases ms with
    | none => simp [hasPerfectScore, progressModules]
    | some m =>
      simp only [hasPerfectScore, progressModules, List.any_eq_true, List.mem_map]
      constructor
      · rintro ⟨mp, ⟨e, he, rfl⟩, hmp⟩
        refine ⟨e, he, ?_⟩
        cases hqs : e.2.quizScore with
        | none => rw [hqs] at hmp; exact absurd hmp (by simp)
        | some s => rw [hqs] at hmp; exact ⟨s, rfl, hmp⟩
      · rintro ⟨e, he, s, hqs, hge⟩
        exact ⟨e.2, ⟨e, he, rfl⟩, by rw [hqs]; exact hge⟩

lemma getCompletedLessonCount_le (module : CourseModule) (mp : ModuleProgress) :
    getCompletedLessonCount module mp ≤ (getModuleLessons module).length := by
  unfold getCompletedLessonCount
  dsimp only
  calc (getModuleLessons module).enum.countP _
      ≤ (getModuleLessons module).enum.length := List.countP_le_length _
    _ = (getModuleLessons module).length := List.enum_length

lemma getCompletedLessonCount_congr (module : CourseModule) (mp : ModuleProgress)
    (l l' : List JKey)
    (h1 : ∀ s ∈ l.map JKey.toStr, s ∈ l'.map JKey.toStr)
    (h2 : ∀ s ∈ l'.map JKey.toStr, s ∈ l.map JKey.toStr) :
    getCompletedLessonCount module { mp with lessonsCompleted := some l }
      = getCompletedLessonCount module { mp with lessonsCompleted := some l' } := by
  have hco : ∀ s, (l.map JKey.toStr).contains s = (l'.map JKey.toStr).contains s := by
    intro s
    by_cases h : s ∈ l.map JKey.toStr
    · have h' := h1 s h
      simp [h, h']
    · have h' : s ∉ l'.map JKey.toStr := fun hh => h (h2 s hh)
      simp [h, h']
  unfold getCompletedLessonCount
  dsimp only
  congr 1
  funext il
  exact hco _

lemma getCompletedLessonCount_mono (module : CourseModule) (mp mp' : ModuleProgress)
    (hl : ∀ k ∈ mp.lessonsCompleted.getD [], k ∈ mp'.lessonsCompleted.getD []) :
    getCompletedLessonCount module mp ≤ getCompletedLessonCount module mp' := by
  unfold getCompletedLessonCount
  dsimp only
  refine List.countP_mono_left ?_
  intro il _ h
  simp only [List.contains_iff_exists_mem_beq] at h ⊢
  obtain ⟨s, hs, hbeq⟩ := h
  obtain ⟨k, hk, rfl⟩ := List.mem_map.mp hs
  exact ⟨k.toStr, List.mem_map.mpr ⟨k, hl k hk, rfl⟩, hbeq⟩

lemma jsGe_trans (a b c : JSNum) (ha : a.isFinite = true) (hb : b.isFinite = true)
    (hc : c.isFinite = true) (hab : jsGe a b = true) (hbc : jsGe b c = true) :
    jsGe a c = true := by
  cases a <;> cases b <;> cases c <;> simp_all [JSNum.isFinite, jsGe]
  exact le_trans hbc hab

/-- C1 (amended): `isModuleCompleted` is true iff the module's lessons are
all completed (zero lessons counts as lesson-complete) and either
`quizPassed` is `true` or `quizScore` is a finite number greater than or
equal to the effective passing score (the module's own `passingScore` if it
is a finite number, else the default 70). -/
theorem isModuleCompleted_iff (module : CourseModule) (mp : ModuleProgress) :
    isModuleCompleted module mp = true ↔
      ((getModuleLessons module).length = 0 ∨
        (getModuleLessons module).length ≤ getCompletedLessonCount module mp) ∧
      (mp.quizPassed = some true ∨
        ∃ s, mp.quizScore = some s ∧ s.isFinite = true ∧
          jsGe s (effectivePassingScore module) = true) :=
  isModuleCompleted_iff_aux module mp

/-- C1 counterexample: with no lessons and `quizScore = Infinity` (a number
that is `>=` the effective passing score 70 under JS comparison), the claim
as stated requires `isModuleCompleted` to be true, but the code's
`Number.isFinite` guard makes it false. -/
theorem isModuleCompleted_infinity_counterexample :
    getModuleLessons ({} : CourseModule) = [] ∧
    ({ quizScore := some JSNum.inf } : ModuleProgress).quizPassed = none ∧
    jsGe JSNum.inf (effectivePassingScore ({} : CourseModule)) = true ∧
    isModuleCompleted ({} : CourseModule) ({ quizScore := some JSNum.inf } : ModuleProgress)
      = false := by
  decide

/-- C2 (amended): the derived badge set contains "completionist" iff the
module list is nonempty with every module completed (`allModulesCompleted`),
or "completionist" already sits in `progress.badges`, or some module's own
`badge.id` is "completionist" and that module's badge is awarded. -/
theorem completionist_mem_iff (progress : Progress) (oms : Option (List CourseModule)) :
    "completionist" ∈ deriveEarnedBadgeIds progress oms ↔
      allModulesCompleted oms progress = true
      ∨ "completionist" ∈ seedBadges progress
      ∨ ∃ im ∈ (oms.getD []).enum, moduleBadgeAward progress im.1 im.2 = some "completionist" := by
  rw [mem_deriveEarnedBadgeIds]
  simp only [String.reduceEq, false_and, or_false, true_and]
  aesop

/-- C2 counterexample: for an empty module list (where "every module is
completed" holds vacuously) and fresh progress, the code never awards the
"completionist" badge, because `allModulesCompleted` returns false on an
empty list. -/
theorem completionist_empty_modules_counterexample :
    ((List.enum ([] : List CourseModule)).all fun im =>
        isModuleCompleted im.2
          (getModuleProgress (Progress.obj (some []) none none none)
            (getModuleId im.2 im.1))) = true ∧
    deriveEarnedBadgeIds (Progress.obj (some []) none none none) (some []) = ∅ := by
  decide

/-- C5 (amended): the derived badge set contains "perfect-score" iff some
record of the progress document's modules map has a numeric
`quizScore >= 100` (not only `== 100`), or "perfect-score" already sits in
`progress.badges`, or some module's own `badge.id` is "perfect-score" and
that module's badge is awarded. -/
theorem perfectScore_mem_iff (progress : Progress) (oms : Option (List CourseModule)) :
    "perfect-score" ∈ deriveEarnedBadgeIds progress oms ↔
      (∃ e ∈ progressModules progress, ∃ s,
        e.2.quizScore = some s ∧ jsGe s (JSNum.fin 100) = true)
      ∨ "perfect-score" ∈ seedBadges progress
      ∨ ∃ im ∈ (oms.getD []).enum, moduleBadgeAward progress im.1 im.2 = some "perfect-score" := by
  rw [mem_deriveEarnedBadgeIds, ← hasPerfectScore_iff]
  simp only [String.reduceEq, false_and, or_false, true_and]
  aesop

/-- C5 counterexample: a progress document whose single module record has
`quizScore = 101` — no module has `quizScore == 100`, yet the code derives
the "perfect-score" badge because it tests `quizScore >= 100`. -/
theorem perfectScore_101_counterexample :
    "perfect-score" ∈
      deriveEarnedBadgeIds
        (Progress.obj (some [("module-1", { quizScore := some (JSNum.fin 101) })]) none none none)
        (some []) ∧
    ((progressModules
        (Progress.obj (some [("module-1", { quizScore := some (JSNum.fin 101) })]) none none none)).all
      fun e => decide (e.2.quizScore ≠ some (JSNum.fin 100))) = true := by
  decide

/-- C3: the request actually sent when the scenario engine submits a choice
carries only `stepId` and `choiceIndex` — the `runningPoints` argument that
`submitChoice` passes is dropped by `submitScenarioChoice`'s three-parameter
signature, so no `accumulatedPoints` field reaches the server. -/
theorem submitChoiceRequest_omits_accumulatedPoints (scenarioId stepId : String)
    (choiceIndex : ℤ) (runningPoints : JSNum) :
    (submitChoiceRequest scenarioId stepId choiceIndex runningPoints).body.map Prod.fst
        = ["stepId", "choiceIndex"] ∧
    ((submitChoiceRequest scenarioId stepId choiceIndex runningPoints).body.map
        Prod.fst).contains "accumulatedPoints" = false := by
  exact ⟨rfl, rfl⟩

/-- C4: `overallProgressPercent` is `round(100 * completedModules / total)`
with completed modules counted by `isModuleCompleted` (via
`countCompletedModules`), and exactly 0 for a non-array or empty module
list. -/
theorem overallProgressPercent_eq (oms : Option (List CourseModule)) (progress : Progress) :
    overallProgressPercent oms progress =
      match oms with
      | none => 0
      | some ms =>
        if ms.isEmpty then 0
        else jsRound (100 * (countCompletedModules (some ms) progress : ℚ) / (ms.length : ℚ)) := by
  cases oms with
  | none => rfl
  | some ms =>
    by_cases h : ms.isEmpty
    · simp [overallProgressPercent, h]
    · simp only [overallProgressPercent, Option.getD_some, h, if_false, Bool.false_eq_true]
      congr 1
      ring

/-- C6 (amended): `isModuleCompleted` is monotone when completed lessons are
added and the quiz score is either unchanged or raised to a higher *finite*
number, every other progress field staying fixed. -/
theorem isModuleCompleted_monotone (module : CourseModule) (mp mp' : ModuleProgress)
    (hl : ∀ k ∈ mp.lessonsCompleted.getD [], k ∈ mp'.lessonsCompleted.getD [])
    (hqp : mp'.quizPassed = mp.quizPassed)
    (hqa : mp'.quizAttempts = mp.quizAttempts)
    (hbe : mp'.badgeEarned = mp.badgeEarned)
    (hqs : mp'.quizScore = mp.quizScore ∨
      ∃ s s', mp.quizScore = some s ∧ mp'.quizScore = some s' ∧
        s'.isFinite = true ∧ jsGe s' s = true)
    (h : isModuleCompleted module mp = true) :
    isModuleCompleted module mp' = true := by
  rw [isModuleCompleted_iff_aux] at h ⊢
  obtain ⟨hles, hquiz⟩ := h
  constructor
  · rcases hles with h0 | hle
    · exact Or.inl h0
    · exact Or.inr (le_trans hle (getCompletedLessonCount_mono module mp mp' hl))
  · rcases hquiz with hp | ⟨s, hs, hsf, hge⟩
    · exact Or.inl (hqp ▸ hp)
    · rcases hqs with heq | ⟨s0, s', hs0, hs', hs'f, hraise⟩
      · exact Or.inr ⟨s, heq ▸ hs, hsf, hge⟩
      · have : s0 = s := by rw [hs0] at hs; exact (Option.some.injEq _ _ ▸ hs).symm ▸ rfl
        subst this
        refine Or.inr ⟨s', hs', hs'f, ?_⟩
        exact jsGe_trans s' s0 (effectivePassingScore module) hs'f hsf
          (effectivePassingScore_isFinite module) hraise hge

/-- C6 counterexample: raising `quizScore` from 70 to the higher number
`Infinity` (all other fields unchanged) flips `isModuleCompleted` from true
to false, because the code requires a finite score. -/
theorem isModuleCompleted_monotone_counterexample :
    isModuleCompleted ({} : CourseModule) ({ quizScore := some (JSNum.fin 70) } : ModuleProgress)
        = true ∧
    jsGt JSNum.inf (JSNum.fin 70) = true ∧
    ({ quizScore := some JSNum.inf } : ModuleProgress).quizPassed
        = ({ quizScore := some (JSNum.fin 70) } : ModuleProgress).quizPassed ∧
    ({ quizScore := some JSNum.inf } : ModuleProgress).lessonsCompleted
        = ({ quizScore := some (JSNum.fin 70) } : ModuleProgress).lessonsCompleted ∧
    isModuleCompleted ({} : CourseModule) ({ quizScore := some JSNum.inf } : ModuleProgress)
        = false := by
  decide

/-- C6 witness: the monotonicity theorem applied at a concrete module (one
lesson, passing score 60): completing a further lesson id and raising the
score 60 → 80 preserves completion. -/
theorem isModuleCompleted_monotone_witness :
    isModuleCompleted
      ({ lessons := some [.prim (.num 1)], passingScore := some (JSNum.fin 60) } : CourseModule)
      ({ lessonsCompleted := some [.num 1, .num 2], quizScore := some (JSNum.fin 80) } :
        ModuleProgress) = true := by
  refine isModuleCompleted_monotone _
    ({ lessonsCompleted := some [.num 1], quizScore := some (JSNum.fin 60) } : ModuleProgress)
    _ (by decide) (by decide) (by decide) (by decide)
    (Or.inr ⟨JSNum.fin 60, JSNum.fin 80, rfl, rfl, rfl, by decide⟩) (by decide)

/-- C7: the derivation functions are deterministic — two runs on the same
`(modules, progress)` pair give equal results — and they are insensitive to
the clock-derived `user.startedAt` field of the progress document, which
derivation never reads. -/
theorem derivation_deterministic
    (ms : Option (List (String × ModuleProgress)))
    (sc : Option (List (String × ScenarioResult)))
    (b : Option (List JKey)) (t t' : Option JSNum)
    (oms : Option (List CourseModule)) (module : CourseModule)
    (mp : ModuleProgress) (progress : Progress) (mid : String) :
    deriveEarnedBadgeIds progress oms = deriveEarnedBadgeIds progress oms ∧
    getModuleStatus module mp = getModuleStatus module mp ∧
    overallProgressPercent oms progress = overallProgressPercent oms progress ∧
    getModuleProgress (.obj ms sc b t) mid = getModuleProgress (.obj ms sc b t') mid ∧
    deriveEarnedBadgeIds (.obj ms sc b t) oms = deriveEarnedBadgeIds (.obj ms sc b t') oms ∧
    overallProgressPercent oms (.obj ms sc b t) = overallProgressPercent oms (.obj ms sc b t') := by
  refine ⟨rfl, rfl, rfl, rfl, ?_, ?_⟩ <;> cases ms <;> cases sc <;> cases b <;> rfl

/-- C8: the derivation functions are total on malformed input: a
non-object progress or one without a modules map yields the empty record
from `getModuleProgress`; a non-array modules argument yields 0 from
`countCompletedModules` and `overallProgressPercent` and false from
`allModulesCompleted`; and `deriveEarnedBadgeIds` still returns a
(here empty) set. -/
theorem derivation_total_on_malformed (mid : String)
    (sc : Option (List (String × ScenarioResult))) (b : Option (List JKey))
    (t : Option JSNum) (progress : Progress) :
    getModuleProgress .notObj mid = ({} : ModuleProgress) ∧
    getModuleProgress (.obj none sc b t) mid = ({} : ModuleProgress) ∧
    countCompletedModules none progress = 0 ∧
    overallProgressPercent none progress = 0 ∧
    allModulesCompleted none progress = false ∧
    deriveEarnedBadgeIds .notObj none = ∅ := by
  refine ⟨rfl, rfl, rfl, rfl, rfl, by decide⟩

/-- C9: `getCompletedLessonCount` never exceeds the number of lessons of the
module (it is a `ℕ`, hence at least 0), and it depends on `lessonsCompleted`
only through the set of `String(·)`-coercions of its entries: two lists with
the same coerced members — e.g. one with duplicates, or numeric ids replaced
by their string forms — give the same count. -/
theorem getCompletedLessonCount_bounds_and_coercion (module : CourseModule)
    (mp : ModuleProgress) :
    getCompletedLessonCount module mp ≤ (getModuleLessons module).length ∧
    ∀ l l' : List JKey,
      (∀ s ∈ l.map JKey.toStr, s ∈ l'.map JKey.toStr) →
      (∀ s ∈ l'.map JKey.toStr, s ∈ l.map JKey.toStr) →
      getCompletedLessonCount module { mp with lessonsCompleted := some l }
        = getCompletedLessonCount module { mp with lessonsCompleted := some l' } :=
  ⟨getCompletedLessonCount_le module mp,
    fun l l' h1 h2 => getCompletedLessonCount_congr module mp l l' h1 h2⟩

/-- C9 witness: concrete instance — the count is bounded by the two lessons,
and the duplicated numeric list `[1, 1, "1", 2]` counts like `["1", "2"]`. -/
theorem getCompletedLessonCount_bounds_and_coercion_witness :
    getCompletedLessonCount
        ({ lessons := some [.prim (.num 1), .prim (.str "2")] } : CourseModule)
        ({ lessonsCompleted := some [.num 1] } : ModuleProgress) ≤ 2 ∧
    getCompletedLessonCount
        ({ lessons := some [.prim (.num 1), .prim (.str "2")] } : CourseModule)
        ({ lessonsCompleted := some [.num 1, .num 1, .str "1", .num 2] } : ModuleProgress)
      = getCompletedLessonCount
        ({ lessons := some [.prim (.num 1), .prim (.str "2")] } : CourseModule)
        ({ lessonsCompleted := some [.str "1", .num 2] } : ModuleProgress) := by
  refine ⟨(getCompletedLessonCount_bounds_and_coercion _ _).1, ?_⟩
  exact (getCompletedLessonCount_bounds_and_coercion
    ({ lessons := some [.prim (.num 1), .prim (.str "2")] } : CourseModule)
    ({ lessonsCompleted := some [.num 1] } : ModuleProgress)).2
    [.num 1, .num 1, .str "1", .num 2] [.str "1", .num 2] (by decide) (by decide)

/-- C10: when the server response's `points` field is missing (`undefined`),
non-numeric (coercing to `NaN`), or the number `NaN` itself, the gained
points are exactly 0, the running total is unchanged, and in particular it
stays finite. -/
theorem gainedPoints_bad_points (runningPoints : JSNum) (points : JSVal)
    (h : points = .undef ∨ points = .objv ∨ points = .num .nan) :
    gainedPoints points = JSNum.fin 0 ∧
    nextRunningPoints runningPoints points = runningPoints ∧
    (runningPoints.isFinite = true → (nextRunningPoints runningPoints points).isFinite = true) := by
  have hg : gainedPoints points = JSNum.fin 0 := by
    rcases h with h | h | h <;> subst h <;> rfl
  refine ⟨hg, ?_, ?_⟩
  · rw [nextRunningPoints, hg]
    cases runningPoints <;> simp [jsAdd]
  · intro hf
    rw [nextRunningPoints, hg]
    cases runningPoints <;> simp_all [jsAdd, JSNum.isFinite]

/-- C10 witness: the theorem applied at a finite running total of 12 and an
`undefined` points field. -/
theorem gainedPoints_bad_points_witness :
    gainedPoints JSVal.undef = JSNum.fin 0 ∧
    nextRunningPoints (JSNum.fin 12) JSVal.undef = JSNum.fin 12 ∧
    ((JSNum.fin 12).isFinite = true →
      (nextRunningPoints (JSNum.fin 12) JSVal.undef).isFinite = true) :=
  gainedPoints_bad_points (JSNum.fin 12) JSVal.undef (Or.inl rfl)
